import Mathlib

/-!
Verification development for the `toolkit` structured-logging facade
(`src/logger/index.js`).  The JavaScript classes `Logger`, `Context` and
`Field` are shallowly embedded: JavaScript values become the inductive
`JSValue`, in-place mutation becomes explicit state passing, and the
external collaborators (the winston sink and the Sentry error reporter)
are represented by the data handed to them (the assembled log record,
the list of captured exceptions).
-/

set_option autoImplicit false

namespace Toolkit

/-- Model of the JavaScript values that can be attached as field values.
A callable is modelled as a thunk carrying the value it returns when
invoked with no arguments (`vfunc ret`). -/
inductive JSValue where
  | vstr (s : String)
  | vnum (n : Int)
  | vbool (b : Bool)
  | vundefined
  | vnull
  | vobj (props : List (String × JSValue))
  | vfunc (ret : JSValue)

/-- The JavaScript `typeof` operator on the modelled values.  Note that
`typeof null` is `"object"` in JavaScript. -/
def jsTypeof : JSValue → String
  | JSValue.vstr _ => "string"
  | JSValue.vnum _ => "number"
  | JSValue.vbool _ => "boolean"
  | JSValue.vundefined => "undefined"
  | JSValue.vnull => "object"
  | JSValue.vobj _ => "object"
  | JSValue.vfunc _ => "function"

/-- Quote a string as a JSON string literal (escaping quotes and
backslashes). -/
def jsonQuote (s : String) : String :=
  "\"" ++ String.join (s.toList.map (fun c =>
    if c = '"' then "\\\"" else
    if c = '\\' then "\\\\" else String.singleton c)) ++ "\""

mutual

/-- Model of `JSON.stringify` on a single value: `none` models JavaScript's
`undefined` result (functions and `undefined` have no JSON
representation and are dropped from objects). -/
def jsonInner : JSValue → Option String
  | JSValue.vstr s => some (jsonQuote s)
  | JSValue.vnum n => some (toString n)
  | JSValue.vbool b => some (cond b "true" "false")
  | JSValue.vnull => some "null"
  | JSValue.vundefined => none
  | JSValue.vfunc _ => none
  | JSValue.vobj props => some ("\x7b" ++ String.intercalate "," (jsonMembers props) ++ "\x7d")

/-- The `"key":value` members of a JSON object, skipping properties
whose value has no JSON representation. -/
def jsonMembers : List (String × JSValue) → List String
  | [] => []
  | (k, v) :: rest =>
    match jsonInner v with
    | some s => (jsonQuote k ++ ":" ++ s) :: jsonMembers rest
    | none => jsonMembers rest

end

/-- Model of `JSON.stringify(value)` as used by `Field._serialiseValue`: it is only
applied to values of `typeof` `"object"`, for which `jsonInner` always
produces a string. -/
def jsonStringify (v : JSValue) : String :=
  (jsonInner v).getD ""

/-- The `Field` class: a name/value/sensitivity triple whose value is
serialised at construction time. -/
structure Field where
  name : String
  value : JSValue
  sensitive : Bool

/-- Model of `Field._serialiseValue`: switch on `typeof value` — objects are
JSON-stringified, `undefined` becomes the empty string, everything else
passes through unchanged. -/
def Field.serialiseValue (value : JSValue) : JSValue :=
  match jsTypeof value with
  | "object" => JSValue.vstr (jsonStringify value)
  | "undefined" => JSValue.vstr ""
  | _ => value

/-- The `Field` constructor: stores the name, the serialised value, and
the sensitivity flag. -/
def Field.make (name : String) (value : JSValue) (sensitive : Bool) : Field :=
  { name := name, value := Field.serialiseValue value, sensitive := sensitive }

/-- The environment variables read by the `Logger` constructor
(`EnvOptions` in the source).  A Node environment variable is either
unset (`none`) or an arbitrary string, possibly empty. -/
structure EnvOptions where
  ENVIRONMENT : Option String
  LOG_LEVEL : Option String
  LOG_FORMAT : Option String
  LOG_FILE : Option String
  LOG_FILE_LEVEL : Option String

/-- The JavaScript ternary `x ? x : d` applied to an environment
variable: an unset variable and the empty string (both falsy) yield the
default `d`. -/
def jsStringOr (x : Option String) (d : String) : String :=
  match x with
  | some s => if s = "" then d else s
  | none => d

/-- The sink configuration the `Logger` constructor derives from the
environment: the development flag, the minimum severity handed to the
console transport, the chosen output format, and the optional file
transport with its level. -/
structure LoggerConfig where
  printSenstive : Bool
  level : String
  logFormat : String
  fileEnabled : Bool
  fileLevel : String

/-- The configuration derivation of the `Logger` constructor:
`printSenstive` iff `NODE_ENV === "development"`; level defaults to
`"error"`; the formatter switch sends `"simple"` and `"logstash"`
through and everything else to `"json"`; the file transport is added
only when `LOG_FILE` is truthy and its level defaults to the primary
level. -/
def Logger.configure (env : EnvOptions) : LoggerConfig :=
  let printSenstive := env.ENVIRONMENT = some "development"
  let defaultLevel := jsStringOr env.LOG_LEVEL "error"
  let logFormat := jsStringOr env.LOG_FORMAT "json"
  let chosenFormat :=
    if logFormat = "simple" then "simple"
    else if logFormat = "logstash" then "logstash"
    else "json"
  { printSenstive := decide printSenstive
    level := defaultLevel
    logFormat := chosenFormat
    fileEnabled := match env.LOG_FILE with
      | some s => s ≠ ""
      | none => false
    fileLevel := jsStringOr env.LOG_FILE_LEVEL defaultLevel }

/-- The mutable state of the `Logger` singleton that emission depends
on: the development flag and the growing list of global fields. -/
structure Logger where
  printSenstive : Bool
  globalFields : List Field

/-- The `Logger` constructor's initial mutable state: the development
flag from the environment and an empty global-field list. -/
def Logger.init (env : EnvOptions) : Logger :=
  { printSenstive := decide (env.ENVIRONMENT = some "development")
    globalFields := [] }

/-- Model of `Logger.setGlobalField`: pushes a non-sensitive field onto
`globalFields` and returns the (mutated) logger. -/
def Logger.setGlobalField (lg : Logger) (name : String) (value : JSValue) : Logger :=
  { lg with globalFields := lg.globalFields ++ [Field.make name value false] }

/-- The state of a `Context`: its accumulated field list.  The
`_logger` member is a shared reference to the mutable singleton, so it
is modelled by passing the Logger's current state to the operations
that read it (`Context.print`). -/
structure Context where
  fields : List Field

/-- The `Context` constructor: a falsy `logger` argument throws
`Error("context expected a logger")`; otherwise the context starts with
an empty field list. -/
def Context.construct (logger : Option Logger) : Except String Context :=
  match logger with
  | none => Except.error "context expected a logger"
  | some _ => Except.ok { fields := [] }

/-- Model of `Context.withField`: pushes a non-sensitive field and returns the
(mutated) context. -/
def Context.withField (ctx : Context) (name : String) (value : JSValue) : Context :=
  { ctx with fields := ctx.fields ++ [Field.make name value false] }

/-- Model of `Context.withSensitiveField`: pushes a sensitive field and returns
the (mutated) context. -/
def Context.withSensitiveField (ctx : Context) (name : String) (value : JSValue) : Context :=
  { ctx with fields := ctx.fields ++ [Field.make name value true] }

/-- A captured exception, identified by the string its `toString`
method renders. -/
structure JSError where
  toString : String

/-- Model of `Context.withError`: calls `Sentry.captureException(err)` (modelled
as the list of exceptions handed to the reporter during the call) and
then appends a non-sensitive `"error"` field holding `err.toString()`. -/
def Context.withError (ctx : Context) (err : JSError) : List JSError × Context :=
  ([err], ctx.withField "error" (JSValue.vstr err.toString))

/-- One `key: value` assignment on a JavaScript object: an existing key
is updated in place, a new key is appended. -/
def setKey : List (String × JSValue) → String → JSValue → List (String × JSValue)
  | [], k, v => [(k, v)]
  | (k', v') :: rest, k, v =>
    if k' = k then (k, v) :: rest else (k', v') :: setKey rest k v

/-- Property lookup on the record object. -/
def getKey : List (String × JSValue) → String → Option JSValue
  | [], _ => none
  | (k', v') :: rest, k => if k' = k then some v' else getKey rest k

/-- The value `Context._print` assigns for one field: invoke the stored
value if `typeof` says it is a function, then blank it if the field is
sensitive and the logger does not print sensitive fields. -/
def emitValue (lg : Logger) (f : Field) : JSValue :=
  let value := if jsTypeof f.value = "function" then
      (match f.value with
       | JSValue.vfunc ret => ret
       | v => v)
    else f.value
  if f.sensitive && !lg.printSenstive then JSValue.vstr "" else value

/-- The `{level: level, message: message}` object `Context._print`
starts from. -/
def baseEntry (level message : String) : List (String × JSValue) :=
  [("level", JSValue.vstr level), ("message", JSValue.vstr message)]

/-- Model of `Context._print`: build the base entry, concatenate the logger's
global fields with the context's own fields, and assign each field's
emitted value under its name in order.  The returned record is what is
handed to the winston sink. -/
def Context.print (lg : Logger) (ctx : Context) (level message : String) :
    List (String × JSValue) :=
  let fields := lg.globalFields ++ ctx.fields
  fields.foldl (fun e f => setKey e f.name (emitValue lg f)) (baseEntry level message)

/-- Model of `Context.error`: print at the error level. -/
def Context.error (lg : Logger) (ctx : Context) (message : String) :
    List (String × JSValue) :=
  Context.print lg ctx "error" message

/-- Model of `Context.info`: print at the info level. -/
def Context.info (lg : Logger) (ctx : Context) (message : String) :
    List (String × JSValue) :=
  Context.print lg ctx "info" message

/-- Model of `Context.debug`: print at the debug level. -/
def Context.debug (lg : Logger) (ctx : Context) (message : String) :
    List (String × JSValue) :=
  Context.print lg ctx "debug" message

/-- Resolution of a stored field value at emission time: a callable is
invoked with no arguments and its result used, any other value is used
as is. -/
def resolveValue : JSValue → JSValue
  | JSValue.vfunc ret => ret
  | v => v

/-- The last field carrying a given name in a list, i.e. the one whose
assignment lands last in the record. -/
def lastNamed (n : String) : List Field → Option Field
  | [] => none
  | f :: rest =>
    match lastNamed n rest with
    | some g => some g
    | none => if f.name = n then some f else none

theorem emitValue_eq (lg : Logger) (f : Field) :
    emitValue lg f =
      if f.sensitive && !lg.printSenstive then JSValue.vstr "" else resolveValue f.value := by
  cases h : f.value <;> simp [emitValue, jsTypeof, resolveValue, h]

theorem getKey_setKey (e : List (String × JSValue)) (k n : String) (v : JSValue) :
    getKey (setKey e k v) n = if k = n then some v else getKey e n := by
  induction e with
  | nil => simp [setKey, getKey]
  | cons p rest ih =>
    obtain ⟨k', v'⟩ := p
    by_cases h : k' = k
    · subst h
      by_cases h2 : k' = n <;> simp [setKey, getKey, h2]
    · by_cases h2 : k' = n
      · subst h2
        simp [setKey, h, getKey]
        exact (if_neg (fun h3 => h h3.symm)).symm
      · simp [setKey, h, getKey, h2, ih]

theorem getKey_foldl_emit (lg : Logger) (n : String) (fs : List Field) :
    ∀ e : List (String × JSValue),
      getKey (fs.foldl (fun e f => setKey e f.name (emitValue lg f)) e) n =
        match lastNamed n fs with
        | some f => some (emitValue lg f)
        | none => getKey e n := by
  induction fs with
  | nil => intro e; simp [lastNamed]
  | cons f rest ih =>
    intro e
    simp only [List.foldl_cons]
    rw [ih]
    cases h : lastNamed n rest with
    | some g => simp [lastNamed, h]
    | none =>
      simp only [lastNamed, h, getKey_setKey]
      by_cases hn : f.name = n <;> simp [hn]

theorem lastNamed_append (n : String) (xs ys : List Field) :
    lastNamed n (xs ++ ys) =
      match lastNamed n ys with
      | some g => some g
      | none => lastNamed n xs := by
  induction xs with
  | nil => cases h : lastNamed n ys <;> simp [lastNamed, h]
  | cons f rest ih =>
    show (match lastNamed n (rest ++ ys) with
          | some g => some g
          | none => if f.name = n then some f else none) = _
    rw [ih]
    cases h : lastNamed n ys <;> cases h2 : lastNamed n rest <;>
      simp [lastNamed, h, h2]

theorem getKey_print (lg : Logger) (ctx : Context) (level msg n : String) :
    getKey (Context.print lg ctx level msg) n =
      match lastNamed n (lg.globalFields ++ ctx.fields) with
      | some f => some (emitValue lg f)
      | none => getKey (baseEntry level msg) n := by
  unfold Context.print
  exact getKey_foldl_emit lg n (lg.globalFields ++ ctx.fields) (baseEntry level msg)

/-- The per-field emission pipeline in the spec's own words (for the
refinement claim C1): resolve the stored value — a callable is invoked
with no arguments and its result used — and then, if the field is
sensitive and the Logger is not in development mode, emit the empty
string regardless of the resolved value; otherwise emit the resolved
value. -/
def specFieldEmission (lg : Logger) (f : Field) : JSValue :=
  if f.sensitive && !lg.printSenstive then JSValue.vstr ""
  else resolveValue f.value

/-- C1: at emission, `Context._print` computes each merged field's
emitted value by first resolving the stored value (invoking a callable
with no arguments) and then blanking it exactly when the field is
sensitive and the Logger is not in development mode; the record is the
in-order assignment of these per-field values over the base entry. -/
theorem print_resolves_then_redacts_each_field (lg : Logger) (ctx : Context)
    (level msg : String) :
    Context.print lg ctx level msg =
      (lg.globalFields ++ ctx.fields).foldl
        (fun e f => setKey e f.name (specFieldEmission lg f)) (baseEntry level msg) := by
  have h : (fun (e : List (String × JSValue)) (f : Field) =>
        setKey e f.name (emitValue lg f)) =
      (fun e f => setKey e f.name (specFieldEmission lg f)) := by
    funext e f
    rw [emitValue_eq]
    rfl
  unfold Context.print
  rw [h]

/-- C3: the `Field` constructor stores the JSON text when `typeof value`
is `"object"`, the empty string when the value is `undefined`, and the
value unchanged in every other case; name and sensitivity are stored as
given. -/
theorem field_construction_serialises (name : String) (v : JSValue) (s : Bool) :
    (jsTypeof v = "object" → (Field.make name v s).value = JSValue.vstr (jsonStringify v)) ∧
    (v = JSValue.vundefined → (Field.make name v s).value = JSValue.vstr "") ∧
    (jsTypeof v ≠ "object" → v ≠ JSValue.vundefined → (Field.make name v s).value = v) ∧
    (Field.make name v s).name = name ∧ (Field.make name v s).sensitive = s := by
  refine ⟨?_, ?_, ?_, rfl, rfl⟩
  · intro h
    cases v <;> first | rfl | simp [jsTypeof] at h
  · intro h
    subst h
    rfl
  · intro h1 h2
    cases v <;> first | rfl | exact absurd rfl h1 | exact absurd rfl h2

/-- Witness for C3 at concrete inputs: an object is stored as its JSON
text, `undefined` as the empty string, and the number 42 unchanged. -/
theorem field_construction_serialises_witness :
    (Field.make "k" (JSValue.vobj [("a", JSValue.vnum 1)]) false).value =
      JSValue.vstr (jsonStringify (JSValue.vobj [("a", JSValue.vnum 1)])) ∧
    (Field.make "k" JSValue.vundefined false).value = JSValue.vstr "" ∧
    (Field.make "k" (JSValue.vnum 42) false).value = JSValue.vnum 42 :=
  ⟨(field_construction_serialises "k" (JSValue.vobj [("a", JSValue.vnum 1)]) false).1 rfl,
   (field_construction_serialises "k" JSValue.vundefined false).2.1 rfl,
   (field_construction_serialises "k" (JSValue.vnum 42) false).2.2.1
     (by decide) (fun h => JSValue.noConfusion h)⟩

/-- C10: attaching a `null` value stores the three-character string
`"null"` (because `typeof null` is `"object"`, `null` is
JSON-stringified), which is neither the empty string nor `null`
itself. -/
theorem null_field_stores_null_text (n : String) (s : Bool) :
    (Field.make n JSValue.vnull s).value = JSValue.vstr "null" ∧
    JSValue.vstr "null" ≠ JSValue.vstr "" ∧
    JSValue.vstr "null" ≠ JSValue.vnull :=
  ⟨rfl, by simp, by simp⟩

/-- Witness for C10 at a concrete field. -/
theorem null_field_stores_null_text_witness :
    (Field.make "x" JSValue.vnull true).value = JSValue.vstr "null" :=
  (null_field_stores_null_text "x" true).1

/-- C4: `Context.withError` hands exactly one exception to the error
reporter and appends exactly one non-sensitive field named `"error"`
holding the error's string representation to the same context. -/
theorem withError_captures_once_and_appends_error_field (ctx : Context) (err : JSError) :
    Context.withError ctx err =
      ([err], { fields := ctx.fields ++
          [{ name := "error", value := JSValue.vstr err.toString, sensitive := false }] }) ∧
    (Context.withError ctx err).1.length = 1 :=
  ⟨rfl, rfl⟩

/-- C6 (amended): constructing a `Context` with a falsy logger argument
fails with the message "context expected a logger"; constructing it
with a `Logger` always succeeds with an empty field list. -/
theorem context_constructor_rejects_missing_logger :
    Context.construct none = Except.error "context expected a logger" ∧
    ∀ lg : Logger, Context.construct (some lg) = Except.ok { fields := [] } :=
  ⟨rfl, fun _ => rfl⟩

/-- Counterexample for C6 as stated: the thrown message is not
"context requires a logger". -/
theorem context_constructor_message_counterexample :
    ¬ Context.construct none = Except.error "context requires a logger" := by
  intro h
  simp [Context.construct] at h

/-- C2: every record starts from the level/message base entry and is
then assigned the Logger's global fields followed by the Context's own
fields in order; for a shared name the last-assigned field's value
wins, so a context field overrides a same-named global field; a name
carried by no field keeps its base-entry value. -/
theorem print_merges_global_then_context_last_writer_wins
    (lg : Logger) (ctx : Context) (level msg n : String) :
    (∀ f, lastNamed n (lg.globalFields ++ ctx.fields) = some f →
      getKey (Context.print lg ctx level msg) n = some (emitValue lg f)) ∧
    (∀ f, lastNamed n ctx.fields = some f →
      getKey (Context.print lg ctx level msg) n = some (emitValue lg f)) ∧
    (lastNamed n (lg.globalFields ++ ctx.fields) = none →
      getKey (Context.print lg ctx level msg) n = getKey (baseEntry level msg) n) := by
  refine ⟨?_, ?_, ?_⟩
  · intro f h
    rw [getKey_print, h]
  · intro f h
    have h2 : lastNamed n (lg.globalFields ++ ctx.fields) = some f := by
      rw [lastNamed_append, h]
    rw [getKey_print, h2]
  · intro h
    rw [getKey_print, h]

/-- Witness for C2: a context field named "a" overrides the global
field of the same name in the emitted record. -/
theorem print_merges_global_then_context_last_writer_wins_witness :
    getKey (Context.print (Logger.mk false [Field.make "a" (JSValue.vnum 1) false])
      (Context.mk [Field.make "a" (JSValue.vnum 2) false]) "info" "m") "a" =
      some (JSValue.vnum 2) :=
  (print_merges_global_then_context_last_writer_wins
      (Logger.mk false [Field.make "a" (JSValue.vnum 1) false])
      (Context.mk [Field.make "a" (JSValue.vnum 2) false]) "info" "m" "a").2.1
    (Field.make "a" (JSValue.vnum 2) false) rfl

/-- C5: a caller-supplied field named "level" (or "message") overwrites
the record's severity (or message) at emission, and with no such field
the base entry's severity and message survive — no validation rejects
or renames reserved-key fields. -/
theorem reserved_keys_overwritten_by_fields
    (lg : Logger) (ctx : Context) (level msg : String) :
    (∀ f, lastNamed "level" (lg.globalFields ++ ctx.fields) = some f →
      getKey (Context.print lg ctx level msg) "level" = some (emitValue lg f)) ∧
    (∀ f, lastNamed "message" (lg.globalFields ++ ctx.fields) = some f →
      getKey (Context.print lg ctx level msg) "message" = some (emitValue lg f)) ∧
    (lastNamed "level" (lg.globalFields ++ ctx.fields) = none →
      getKey (Context.print lg ctx level msg) "level" = some (JSValue.vstr level)) ∧
    (lastNamed "message" (lg.globalFields ++ ctx.fields) = none →
      getKey (Context.print lg ctx level msg) "message" = some (JSValue.vstr msg)) := by
  refine ⟨?_, ?_, ?_, ?_⟩
  · intro f h
    rw [getKey_print, h]
  · intro f h
    rw [getKey_print, h]
  · intro h
    rw [getKey_print, h]
    rfl
  · intro h
    rw [getKey_print, h]
    rfl

/-- Witness for C5: a context field named "level" replaces the severity
"error" with the number 7, while the untouched message key keeps the
call's message. -/
theorem reserved_keys_overwritten_by_fields_witness :
    getKey (Context.print (Logger.mk false [])
      (Context.mk [Field.make "level" (JSValue.vnum 7) false]) "error" "boom") "level" =
      some (JSValue.vnum 7) ∧
    getKey (Context.print (Logger.mk false [])
      (Context.mk [Field.make "level" (JSValue.vnum 7) false]) "error" "boom") "message" =
      some (JSValue.vstr "boom") :=
  ⟨(reserved_keys_overwritten_by_fields (Logger.mk false [])
      (Context.mk [Field.make "level" (JSValue.vnum 7) false]) "error" "boom").1
      (Field.make "level" (JSValue.vnum 7) false) rfl,
   (reserved_keys_overwritten_by_fields (Logger.mk false [])
      (Context.mk [Field.make "level" (JSValue.vnum 7) false]) "error" "boom").2.2.2 rfl⟩

/-- C8: with all inputs fixed except the development flag, the two
emitted records agree everywhere except at names whose winning field is
sensitive: there the development record carries the resolved value and
the non-development record the empty string; any key at which the
records differ is such a sensitive key. -/
theorem development_flag_changes_only_sensitive_values
    (gfs cfs : List Field) (level msg n : String) :
    (∀ f, lastNamed n (gfs ++ cfs) = some f → f.sensitive = true →
      getKey (Context.print (Logger.mk true gfs) (Context.mk cfs) level msg) n =
        some (resolveValue f.value) ∧
      getKey (Context.print (Logger.mk false gfs) (Context.mk cfs) level msg) n =
        some (JSValue.vstr "")) ∧
    (∀ f, lastNamed n (gfs ++ cfs) = some f → f.sensitive = false →
      getKey (Context.print (Logger.mk true gfs) (Context.mk cfs) level msg) n =
        getKey (Context.print (Logger.mk false gfs) (Context.mk cfs) level msg) n) ∧
    (lastNamed n (gfs ++ cfs) = none →
      getKey (Context.print (Logger.mk true gfs) (Context.mk cfs) level msg) n =
        getKey (Context.print (Logger.mk false gfs) (Context.mk cfs) level msg) n) ∧
    (getKey (Context.print (Logger.mk true gfs) (Context.mk cfs) level msg) n ≠
        getKey (Context.print (Logger.mk false gfs) (Context.mk cfs) level msg) n →
      ∃ f, lastNamed n (gfs ++ cfs) = some f ∧ f.sensitive = true) := by
  have base : ∀ b : Bool,
      getKey (Context.print (Logger.mk b gfs) (Context.mk cfs) level msg) n =
        match lastNamed n (gfs ++ cfs) with
        | some f => some (emitValue (Logger.mk b gfs) f)
        | none => getKey (baseEntry level msg) n :=
    fun b => getKey_print (Logger.mk b gfs) (Context.mk cfs) level msg n
  refine ⟨?_, ?_, ?_, ?_⟩
  · intro f h hs
    constructor
    · rw [base true, h]
      simp [emitValue_eq, hs]
    · rw [base false, h]
      simp [emitValue_eq, hs]
  · intro f h hs
    rw [base true, base false, h]
    simp [emitValue_eq, hs]
  · intro h
    rw [base true, base false, h]
  · intro hne
    cases h : lastNamed n (gfs ++ cfs) with
    | none => exact absurd (by rw [base true, base false, h]) hne
    | some f =>
      cases hs : f.sensitive with
      | false =>
        refine absurd ?_ hne
        rw [base true, base false, h]
        simp [emitValue_eq, hs]
      | true => exact ⟨f, h ▸ rfl, hs⟩

/-- Witness for C8: a sensitive field "secret" is emitted with its real
value in development mode and as the empty string otherwise. -/
theorem development_flag_changes_only_sensitive_values_witness :
    getKey (Context.print (Logger.mk true [])
      (Context.mk [Field.make "secret" (JSValue.vstr "s3cr3t") true]) "info" "m") "secret" =
      some (JSValue.vstr "s3cr3t") ∧
    getKey (Context.print (Logger.mk false [])
      (Context.mk [Field.make "secret" (JSValue.vstr "s3cr3t") true]) "info" "m") "secret" =
      some (JSValue.vstr "") :=
  (development_flag_changes_only_sensitive_values []
      [Field.make "secret" (JSValue.vstr "s3cr3t") true] "info" "m" "secret").1
    (Field.make "secret" (JSValue.vstr "s3cr3t") true) rfl rfl

/-- C7: `setGlobalField` appends exactly one non-sensitive field to the
global-field list, preserves the rest of the logger state, and the
append is visible exactly to subsequent emissions: a record emitted
from the prior logger state holds no entry for a fresh name, while a
record emitted after the append carries the new field whenever the
context does not override it. -/
theorem setGlobalField_appends_only (lg : Logger) (n : String) (v : JSValue) :
    (Logger.setGlobalField lg n v).globalFields =
      lg.globalFields ++ [Field.make n v false] ∧
    (Field.make n v false).sensitive = false ∧
    (Logger.setGlobalField lg n v).printSenstive = lg.printSenstive ∧
    (∀ (ctx : Context) (level msg : String),
      lastNamed n (lg.globalFields ++ ctx.fields) = none →
      n ≠ "level" → n ≠ "message" →
      getKey (Context.print lg ctx level msg) n = none) ∧
    (∀ (ctx : Context) (level msg : String),
      lastNamed n ctx.fields = none →
      getKey (Context.print (Logger.setGlobalField lg n v) ctx level msg) n =
        some (emitValue lg (Field.make n v false))) := by
  refine ⟨rfl, rfl, rfl, ?_, ?_⟩
  · intro ctx level msg h h1 h2
    rw [getKey_print, h]
    simp [baseEntry, getKey, Ne.symm h1, Ne.symm h2]
  · intro ctx level msg h
    have hF : lastNamed n ((lg.globalFields ++ [Field.make n v false]) ++ ctx.fields) =
        some (Field.make n v false) := by
      rw [lastNamed_append, h, lastNamed_append]
      simp [lastNamed, Field.make]
    rw [getKey_print]
    have hS : (Logger.setGlobalField lg n v).globalFields =
        lg.globalFields ++ [Field.make n v false] := rfl
    rw [hS, hF]
    rfl

/-- Witness for C7: before the append an emission has no "g" key; after
`setGlobalField "g" 3` an emission carries it with value 3. -/
theorem setGlobalField_appends_only_witness :
    getKey (Context.print (Logger.mk false []) (Context.mk []) "info" "m") "g" = none ∧
    getKey (Context.print (Logger.setGlobalField (Logger.mk false []) "g" (JSValue.vnum 3))
      (Context.mk []) "info" "m") "g" = some (JSValue.vnum 3) :=
  ⟨(setGlobalField_appends_only (Logger.mk false []) "g" (JSValue.vnum 3)).2.2.2.1
      (Context.mk []) "info" "m" rfl (by decide) (by decide),
   (setGlobalField_appends_only (Logger.mk false []) "g" (JSValue.vnum 3)).2.2.2.2
      (Context.mk []) "info" "m" rfl⟩

/-- C9 (amended): the development flag holds iff NODE_ENV is exactly
"development"; the minimum severity is the configured LOG_LEVEL when it
is non-empty and "error" otherwise (an empty configured value is falsy
in the JavaScript ternary and falls back to "error"); the output format
is "simple" or "logstash" when so configured and "json" for any other
or absent value. -/
theorem logger_config_derivation (env : EnvOptions) :
    ((Logger.configure env).printSenstive = true ↔ env.ENVIRONMENT = some "development") ∧
    (env.LOG_LEVEL = none → (Logger.configure env).level = "error") ∧
    (env.LOG_LEVEL = some "" → (Logger.configure env).level = "error") ∧
    (∀ s, env.LOG_LEVEL = some s → s ≠ "" → (Logger.configure env).level = s) ∧
    (env.LOG_FORMAT = some "simple" → (Logger.configure env).logFormat = "simple") ∧
    (env.LOG_FORMAT = some "logstash" → (Logger.configure env).logFormat = "logstash") ∧
    (∀ s, env.LOG_FORMAT = some s → s ≠ "simple" → s ≠ "logstash" →
      (Logger.configure env).logFormat = "json") ∧
    (env.LOG_FORMAT = none → (Logger.configure env).logFormat = "json") := by
  refine ⟨?_, ?_, ?_, ?_, ?_, ?_, ?_, ?_⟩
  · simp [Logger.configure]
  · intro h
    simp [Logger.configure, jsStringOr, h]
  · intro h
    simp [Logger.configure, jsStringOr, h]
  · intro s h hs
    simp [Logger.configure, jsStringOr, h, hs]
  · intro h
    simp [Logger.configure, jsStringOr, h]
  · intro h
    simp [Logger.configure, jsStringOr, h]
  · intro s h hs1 hs2
    by_cases hse : s = "" <;> simp [Logger.configure, jsStringOr, h, hs1, hs2, hse]
  · intro h
    simp [Logger.configure, jsStringOr, h]

/-- Witness for C9 at concrete environments: NODE_ENV "production"
turns the development flag off, LOG_LEVEL "debug" is taken as the
minimum severity, and an unset LOG_FORMAT yields "json". -/
theorem logger_config_derivation_witness :
    ((Logger.configure
        { ENVIRONMENT := some "production", LOG_LEVEL := some "debug",
          LOG_FORMAT := none, LOG_FILE := none, LOG_FILE_LEVEL := none }).level = "debug") ∧
    ((Logger.configure
        { ENVIRONMENT := some "production", LOG_LEVEL := some "debug",
          LOG_FORMAT := none, LOG_FILE := none, LOG_FILE_LEVEL := none }).logFormat = "json") ∧
    ¬ (Logger.configure
        { ENVIRONMENT := some "production", LOG_LEVEL := some "debug",
          LOG_FORMAT := none, LOG_FILE := none, LOG_FILE_LEVEL := none }).printSenstive = true :=
  ⟨(logger_config_derivation
      { ENVIRONMENT := some "production", LOG_LEVEL := some "debug",
        LOG_FORMAT := none, LOG_FILE := none, LOG_FILE_LEVEL := none }).2.2.2.1
      "debug" rfl (by decide),
   (logger_config_derivation
      { ENVIRONMENT := some "production", LOG_LEVEL := some "debug",
        LOG_FORMAT := none, LOG_FILE := none, LOG_FILE_LEVEL := none }).2.2.2.2.2.2.2 rfl,
   fun hp =>
     absurd ((logger_config_derivation
       { ENVIRONMENT := some "production", LOG_LEVEL := some "debug",
         LOG_FORMAT := none, LOG_FILE := none, LOG_FILE_LEVEL := none }).1.mp hp)
       (by decide)⟩

/-- The concrete environment refuting C9 as stated: LOG_LEVEL is set,
but to the empty string. -/
def emptyLogLevelEnv : EnvOptions :=
  { ENVIRONMENT := none, LOG_LEVEL := some "", LOG_FORMAT := none,
    LOG_FILE := none, LOG_FILE_LEVEL := none }

/-- Counterexample for C9 as stated: with LOG_LEVEL configured to the
empty string the derived minimum severity is "error", not the
configured value. -/
theorem logger_config_level_counterexample :
    emptyLogLevelEnv.LOG_LEVEL = some "" ∧
    (Logger.configure emptyLogLevelEnv).level ≠ "" :=
  ⟨rfl, by decide⟩

end Toolkit
